import Mathlib

/-!
Shallow embedding of `src/main.py` of the image-converter API: an HTTP service
with three endpoints (`/resize`, `/crop-square`, `/crop`) that decode an
uploaded image, flatten transparency onto a white background, apply one
transform, and encode the result as WEBP.

Modelling conventions:
- Arithmetic done by Python on floats (`h / w`, `new_width * aspect_ratio`)
  is modelled faithfully to IEEE-754 binary64: every float operation returns
  the correctly rounded (round-to-nearest, ties-to-even, 53-bit significand)
  value of its exact rational result, computed by `fl64` below.  The exponent
  is unbounded in the model (no overflow or subnormals), which coincides with
  IEEE behaviour for the magnitudes that arise from image dimensions; integer
  operands are converted exactly (dimensions are far below 2^53).  Python
  `int()` truncation and Python `round` (half to even) are modelled
  explicitly.
- The image library (Pillow) is an external collaborator; its primitives
  (`Image.open`, `paste`, `resize`, `crop`, `save`) are modelled by their
  documented behaviour.  The bytes → image decoding step is an oracle carried
  inside the request (`Request.decoded`): the `Except` value that `Image.open`
  produces on the uploaded bytes.  Pixel content after Lanczos resampling is
  abstracted (no claim concerns it); compositing and cropping of pixels are
  modelled exactly.
- Handlers return a `HandlerResponse` plus an ordered trace of observable
  events (reading the upload body, writing to the operational log).
-/

namespace ImageConverter

/-- Python `int()` applied to a (float-valued) rational: truncation toward
zero. -/
def pyInt (q : ℚ) : ℤ := if q < 0 then -(⌊-q⌋) else ⌊q⌋

/-- Python `round` applied to a rational: round half to even. -/
def pyRound (q : ℚ) : ℤ :=
  if q - ⌊q⌋ < 1 / 2 then ⌊q⌋
  else if 1 / 2 < q - ⌊q⌋ then ⌊q⌋ + 1
  else if ⌊q⌋ % 2 = 0 then ⌊q⌋ else ⌊q⌋ + 1

/-- Python `str.startswith`, modelled on the character list of the string. -/
def pyStartsWith (s pre : String) : Bool := pre.data.isPrefixOf s.data

/-- The binade of the positive fraction a / b: the integer L with
2^L ≤ a / b < 2^(L+1), computed from the natural-number base-2 logarithms of
numerator and denominator. -/
def natPairLog (a b : ℕ) : ℤ :=
  if b * 2 ^ Nat.log 2 a ≤ a * 2 ^ Nat.log 2 b then
    (Nat.log 2 a : ℤ) - (Nat.log 2 b : ℤ)
  else (Nat.log 2 a : ℤ) - (Nat.log 2 b : ℤ) - 1

/-- The binade exponent of a rational: for q > 0, the L with 2^L ≤ q < 2^(L+1). -/
def floorLog2 (q : ℚ) : ℤ := natPairLog q.num.toNat q.den

/-- Rounding of a real (rational) value to IEEE-754 binary64: scale into the
53-bit significand range [2^52, 2^53), round to the nearest integer with ties
to even, and scale back.  The exponent is unbounded (no overflow and no
subnormals), which agrees with IEEE binary64 for all magnitudes arising from
image dimensions.  This is what every CPython float operation (`/`, `*`, and
int-to-float conversion beyond 2^53) applies to its exact result. -/
def fl64 (q : ℚ) : ℚ :=
  if q = 0 then 0
  else (pyRound (q / 2 ^ (floorLog2 |q| - 52)) : ℚ) * 2 ^ (floorLog2 |q| - 52)

/-- Pixel color modes of decoded images that this service distinguishes:
RGB, RGBA (RGB with alpha), L (grayscale), LA (grayscale with alpha). -/
inductive Mode where
  | RGB
  | RGBA
  | L
  | LA
deriving DecidableEq

/-- Whether the mode carries an alpha channel. -/
def Mode.hasAlpha : Mode → Bool
  | .RGBA | .LA => true
  | _ => false

/-- One pixel, with channel values 0–255; for modes without an alpha channel
the `a` field is the implicit opaque value 255. -/
structure Pix where
  r : ℕ
  g : ℕ
  b : ℕ
  a : ℕ
deriving DecidableEq

/-- A decoded in-memory raster: width, height, color mode and pixel data. -/
structure DecodedImage where
  width : ℕ
  height : ℕ
  mode : Mode
  px : ℕ → ℕ → Pix

/-- Pillow's SHIFTFORDIV255 macro: exact rounding division by 255 computed
with shifts, `((x >> 8) + x) >> 8` on `x + 128`. -/
def shiftForDiv255 (x : ℕ) : ℕ := (x / 256 + x) / 256

/-- Pillow's MULDIV255 macro: `(a * b + 128)` divided by 255 with rounding. -/
def mulDiv255 (a b : ℕ) : ℕ := shiftForDiv255 (a * b + 128)

/-- Pillow's BLEND macro used by `paste` with an 8-bit mask: interpolate
between `v1` (background) and `v2` (pasted image) with weight `mask`. -/
def blendChannel (mask v1 v2 : ℕ) : ℕ := mulDiv255 v1 (255 - mask) + mulDiv255 v2 mask

/-- Compositing one pixel onto opaque white (channel value 255) using the
pixel's alpha channel as the blend weight; the result is opaque. -/
def flattenPix (p : Pix) : Pix :=
  { r := blendChannel p.a 255 p.r
    g := blendChannel p.a 255 p.g
    b := blendChannel p.a 255 p.b
    a := 255 }

/-- Lines 33–36 (and 93–96, 133–136) of `src/main.py`: if `img.mode` is
`"RGBA"` or `"LA"`, paste the image onto a white RGB background of the same
size using its alpha channel as mask; otherwise leave the image as is. -/
def flattenAlpha (img : DecodedImage) : DecodedImage :=
  if img.mode = Mode.RGBA ∨ img.mode = Mode.LA then
    { width := img.width
      height := img.height
      mode := Mode.RGB
      px := fun x y => flattenPix (img.px x y) }
  else img

/-- The spec's description of the alpha-flattening step on an image with an
alpha channel: a new image of the same pixel dimensions with mode RGB, every
pixel composited onto a solid white background with the alpha channel as the
blend weight. -/
def whiteComposite (img : DecodedImage) : DecodedImage :=
  { width := img.width
    height := img.height
    mode := Mode.RGB
    px := fun x y => flattenPix (img.px x y) }

/-- Line 39 of `src/main.py`: `aspect_ratio = img.size[1] / img.size[0]`
(height over width).  Python true division of two ints produces the correctly
rounded binary64 value of the exact ratio. -/
def aspect_ratio (img : DecodedImage) : ℚ :=
  fl64 ((img.height : ℚ) / (img.width : ℚ))

/-- Line 40 of `src/main.py`: `new_width = min(max_width, img.size[0])`. -/
def new_width (img : DecodedImage) (max_width : ℤ) : ℤ :=
  min max_width (img.width : ℤ)

/-- Line 41 of `src/main.py`: `new_height = int(new_width * aspect_ratio)` —
the int `new_width` converts to binary64 exactly (image widths are far below
2^53), the float product rounds once to binary64, and Python `int()`
truncates the result toward zero. -/
def new_height (img : DecodedImage) (max_width : ℤ) : ℤ :=
  pyInt (fl64 ((new_width img max_width : ℚ) * aspect_ratio img))

/-- Model of Pillow `Image.resize((w, h), LANCZOS)`: raises `ValueError` when
a target dimension is negative, otherwise produces an image of exactly the
target size and the same mode.  Resampled pixel content is abstracted. -/
def pilResize (img : DecodedImage) (w h : ℤ) : Except String DecodedImage :=
  if w < 0 ∨ h < 0 then .error "height and width must be >= 0"
  else .ok { width := w.toNat, height := h.toNat, mode := img.mode, px := img.px }

/-- The terminal artifact of `Image.save(buffer, format=..., quality=...,
optimize=True)`: the encoded buffer, recorded as the image together with the
encoding parameters used. -/
structure Encoded where
  image : DecodedImage
  format : String
  quality : ℤ
  optimize : Bool

/-- Model of Pillow `Image.save` to a lossy raster format: encoding an empty
(zero-width or zero-height) image raises; otherwise it succeeds and records
the encoding parameters (`optimize=True` at every call site in `src/main.py`). -/
def pilSave (img : DecodedImage) (fmt : String) (quality : ℤ) : Except String Encoded :=
  if img.width = 0 ∨ img.height = 0 then .error "cannot write empty image"
  else .ok { image := img, format := fmt, quality := quality, optimize := true }

/-- Model of Pillow `Image.crop(box)` with a float box: raises when
`right < left` or `bottom < top`; coordinates are rounded with Python `round`;
the output has size `(round right − round left, round bottom − round top)`,
the same mode, and pixels read from the source at the rounded offset
(out-of-bounds reads are the pad fill, abstracted by the total pixel
function). -/
def pilCrop (img : DecodedImage) (box : ℚ × ℚ × ℚ × ℚ) : Except String DecodedImage :=
  if box.2.2.1 < box.1 then .error "Coordinate right is less than left"
  else if box.2.2.2 < box.2.1 then .error "Coordinate lower is less than upper"
  else
    .ok { width := (pyRound box.2.2.1 - pyRound box.1).toNat
          height := (pyRound box.2.2.2 - pyRound box.2.1).toNat
          mode := img.mode
          px := fun x y => img.px (x + (pyRound box.1).toNat) (y + (pyRound box.2.1).toNat) }

/-- Sequencing of fallible steps inside a `try` block: an exception in an
earlier statement propagates past the later ones. -/
def exBind (x : Except String α) (f : α → Except String β) : Except String β :=
  match x with
  | .error e => .error e
  | .ok a => f a

lemma exBind_ok (a : α) (f : α → Except String β) : exBind (.ok a) f = f a := rfl

lemma exBind_error (e : String) (f : α → Except String β) :
    exBind (.error e) f = .error e := rfl

/-- Lines 29–52 of `src/main.py`, the body of the `try` in `resize_in_memory`:
decode (the oracle's verdict), flatten alpha, compute the new dimensions,
resize, and save.  Python raises `ZeroDivisionError` at line 39 when the
width is zero; that is modelled as an explicit error. -/
def resizeCore (decoded : Except String DecodedImage) (max_width quality : ℤ)
    (output_format : String) : Except String Encoded :=
  exBind decoded fun opened =>
    let img := flattenAlpha opened
    if img.width = 0 then .error "division by zero"
    else
      exBind (pilResize img (new_width img max_width) (new_height img max_width))
        fun resized => pilSave resized output_format quality

/-- An `HTTPException` as raised by the handlers: status code and detail. -/
structure HTTPError where
  status : ℕ
  detail : String
deriving DecidableEq

/-- Observable side effects of a handler, in order: reading the upload body
into memory (`await file.read()`) and writing to the operational log
(`logging.error(...)`). -/
inductive Event where
  | readUpload
  | logError (msg : String)
deriving DecidableEq

/-- Lines 11–56 of `src/main.py`: `resize_in_memory` including its `except`
clause, which logs `"Image processing failed: "` followed by the exception
text and raises `HTTPException(400, str(e))`. -/
def resize_in_memory (decoded : Except String DecodedImage) (max_width quality : ℤ)
    (output_format : String) : Except HTTPError Encoded × List Event :=
  match resizeCore decoded max_width quality output_format with
  | .ok enc => (.ok enc, [])
  | .error e => (.error ⟨400, e⟩, [.logError ("Image processing failed: " ++ e)])

/-- What a handler hands back to FastAPI: a `Response` with a body and a media
type, an `HTTPException`, or nothing (the Python function falls off the end
and returns `None`, so no response body reaches the caller). -/
inductive HandlerResponse where
  | ok (body : Encoded) (mediaType : String)
  | httpError (e : HTTPError)
  | noBody

/-- Result of running one handler: its response and its event trace. -/
structure HResult where
  response : HandlerResponse
  events : List Event

/-- An inbound request: the upload's declared content type and the decode
oracle — what `Image.open` returns on the uploaded bytes. -/
structure Request where
  contentType : Option String
  decoded : Except String DecodedImage

/-- The content-type guard shared by all three handlers (lines 64, 84, 126):
`file.content_type is None or not file.content_type.startswith("image/")`
rejects; this function is true exactly when the upload passes the guard. -/
def validContentType : Option String → Bool
  | none => false
  | some ct => pyStartsWith ct "image/"

/-- Lines 59–76 of `src/main.py`: the `/resize` endpoint.  Rejects non-image
content types with 400 before reading the body; otherwise reads the upload,
calls `resize_in_memory` with the defaults (so `output_format = "WEBP"`), and
returns the bytes with media type `"image/webp"`. -/
def resize_image (req : Request) (max_width quality : ℤ) : HResult :=
  if validContentType req.contentType then
    match resize_in_memory req.decoded max_width quality "WEBP" with
    | (.ok enc, evs) => ⟨.ok enc "image/webp", .readUpload :: evs⟩
    | (.error e, evs) => ⟨.httpError e, .readUpload :: evs⟩
  else ⟨.httpError ⟨400, "File must be an image"⟩, []⟩

/-- Lines 98–103 of `src/main.py`: the centre-square crop box.
`crop_size = min(img.size)`, `left = (width − crop_size) // 2`,
`top = (height − crop_size) // 2`, `right = left + crop_size`,
`bottom = top + crop_size`. -/
def squareCropBox (img : DecodedImage) : ℤ × ℤ × ℤ × ℤ :=
  let crop_size : ℤ := min (img.width : ℤ) (img.height : ℤ)
  let left := ((img.width : ℤ) - crop_size) / 2
  let top := ((img.height : ℤ) - crop_size) / 2
  (left, top, left + crop_size, top + crop_size)

/-- Lines 87–112 of `src/main.py`, the body of the `try` in `crop_square`:
decode, flatten alpha, compute the centre-square box, crop, save as WEBP. -/
def cropSquareCore (decoded : Except String DecodedImage) (quality : ℤ) :
    Except String Encoded :=
  exBind decoded fun opened =>
    let img := flattenAlpha opened
    let box := squareCropBox img
    exBind (pilCrop img ((box.1 : ℚ), (box.2.1 : ℚ), (box.2.2.1 : ℚ), (box.2.2.2 : ℚ)))
      fun cropped => pilSave cropped "WEBP" quality

/-- Lines 79–116 of `src/main.py`: the `/crop-square` endpoint.  Content-type
guard, then the try-block; on failure logs and responds 400 with the message;
on success responds with the WEBP bytes and media type `"image/webp"`. -/
def crop_square (req : Request) (quality : ℤ) : HResult :=
  if validContentType req.contentType then
    match cropSquareCore req.decoded quality with
    | .ok enc => ⟨.ok enc "image/webp", [.readUpload]⟩
    | .error e =>
        ⟨.httpError ⟨400, e⟩, [.readUpload, .logError ("Image processing failed: " ++ e)]⟩
  else ⟨.httpError ⟨400, "File must be an image"⟩, []⟩

/-- Lines 129–139 of `src/main.py`, the body of the `try` in `crop`: decode,
flatten alpha, crop the caller's box, save as WEBP. -/
def cropCore (decoded : Except String DecodedImage) (box : ℚ × ℚ × ℚ × ℚ)
    (quality : ℤ) : Except String Encoded :=
  exBind decoded fun opened =>
    exBind (pilCrop (flattenAlpha opened) box)
      fun cropped => pilSave cropped "WEBP" quality

/-- Lines 119–141 of `src/main.py`: the `/crop` endpoint.  Content-type guard,
then the try-block; on failure responds 400 with the message (no logging
call in this handler); on success the Python function has no `return`
statement, so it returns `None` and produces no response body. -/
def crop (req : Request) (box : ℚ × ℚ × ℚ × ℚ) (quality : ℤ) : HResult :=
  if validContentType req.contentType then
    match cropCore req.decoded box quality with
    | .ok _ => ⟨.noBody, [.readUpload]⟩
    | .error e => ⟨.httpError ⟨400, e⟩, [.readUpload]⟩
  else ⟨.httpError ⟨400, "File must be an image"⟩, []⟩

/-- A concrete all-black opaque test image of the given size and mode. -/
def sampleImage (w h : ℕ) (m : Mode) : DecodedImage :=
  { width := w, height := h, mode := m, px := fun _ _ => ⟨0, 0, 0, 255⟩ }

lemma flattenAlpha_width (img : DecodedImage) : (flattenAlpha img).width = img.width := by
  unfold flattenAlpha
  split <;> rfl

lemma flattenAlpha_height (img : DecodedImage) : (flattenAlpha img).height = img.height := by
  unfold flattenAlpha
  split <;> rfl

lemma mode_hasAlpha_false {m : Mode} (h1 : m ≠ Mode.RGBA) (h2 : m ≠ Mode.LA) :
    m.hasAlpha = false := by
  cases m <;> first | rfl | exact absurd rfl h1 | exact absurd rfl h2

lemma flattenAlpha_of_no_alpha {img : DecodedImage} (h : img.mode.hasAlpha = false) :
    flattenAlpha img = img := by
  unfold flattenAlpha
  rw [if_neg]
  rintro (h1 | h1) <;> rw [h1] at h <;> simp [Mode.hasAlpha] at h

lemma hasAlpha_flattenAlpha (img : DecodedImage) :
    (flattenAlpha img).mode.hasAlpha = false := by
  unfold flattenAlpha
  split
  · rfl
  · next hc =>
    push_neg at hc
    exact mode_hasAlpha_false hc.1 hc.2

/-- C6: flattening an image with an alpha channel yields the white-composited
RGB image of the same dimensions described by the spec; an image without an
alpha channel is returned unchanged; and flattening is idempotent. -/
theorem C6_flatten_spec (img : DecodedImage) :
    flattenAlpha img = (if img.mode.hasAlpha then whiteComposite img else img) ∧
    flattenAlpha (flattenAlpha img) = flattenAlpha img := by
  constructor
  · rcases img with ⟨w, h, m, p⟩
    cases m <;> simp [flattenAlpha, whiteComposite, Mode.hasAlpha]
  · rw [flattenAlpha_of_no_alpha (hasAlpha_flattenAlpha img)]

lemma pyRound_intCast (n : ℤ) : pyRound (n : ℚ) = n := by
  unfold pyRound
  rw [Int.floor_intCast]
  rw [if_pos (by norm_num)]

lemma pilCrop_intBox (img : DecodedImage) (l t r b : ℤ) (hlr : l ≤ r) (htb : t ≤ b) :
    pilCrop img ((l : ℚ), (t : ℚ), (r : ℚ), (b : ℚ)) =
      .ok { width := (r - l).toNat
            height := (b - t).toNat
            mode := img.mode
            px := fun x y => img.px (x + l.toNat) (y + t.toNat) } := by
  unfold pilCrop
  rw [if_neg, if_neg]
  · simp [pyRound_intCast]
  all_goals first
    | (show ¬ ((r : ℚ) < (l : ℚ)); exact_mod_cast not_lt.mpr hlr)
    | (show ¬ ((b : ℚ) < (t : ℚ)); exact_mod_cast not_lt.mpr htb)

/-- C7: for every decoded image, the centre-square crop computes the box
`(left, top, left + crop_size, top + crop_size)` with
`crop_size = min(width, height)` and `left = (width − crop_size) // 2`
(`top` analogous), and cropping that box succeeds and yields a square image
whose side is `min(width, height)`. -/
theorem C7_square_crop (img : DecodedImage) :
    squareCropBox img =
      (((img.width : ℤ) - min (img.width : ℤ) (img.height : ℤ)) / 2,
       ((img.height : ℤ) - min (img.width : ℤ) (img.height : ℤ)) / 2,
       ((img.width : ℤ) - min (img.width : ℤ) (img.height : ℤ)) / 2 +
         min (img.width : ℤ) (img.height : ℤ),
       ((img.height : ℤ) - min (img.width : ℤ) (img.height : ℤ)) / 2 +
         min (img.width : ℤ) (img.height : ℤ)) ∧
    ∃ c, pilCrop img (((squareCropBox img).1 : ℚ), ((squareCropBox img).2.1 : ℚ),
           ((squareCropBox img).2.2.1 : ℚ), ((squareCropBox img).2.2.2 : ℚ)) = .ok c ∧
         c.width = min img.width img.height ∧ c.height = min img.width img.height := by
  constructor
  · rfl
  · have hs : (0 : ℤ) ≤ min (img.width : ℤ) (img.height : ℤ) :=
      le_min (Int.ofNat_nonneg _) (Int.ofNat_nonneg _)
    simp only [squareCropBox]
    rw [pilCrop_intBox img _ _ _ _ (by omega) (by omega)]
    refine ⟨_, rfl, ?_, ?_⟩ <;> simp only [] <;> omega

lemma pyInt_intCast (n : ℤ) : pyInt (n : ℚ) = n := by
  unfold pyInt
  split
  · rw [← Int.cast_neg, Int.floor_intCast]
    omega
  · rw [Int.floor_intCast]

lemma pyInt_of_nonneg {q : ℚ} (h : 0 ≤ q) : pyInt q = ⌊q⌋ :=
  if_neg (not_lt.mpr h)

lemma resizeCore_ok_inv {d : Except String DecodedImage} {W q : ℤ} {fmt : String}
    {enc : Encoded} (h : resizeCore d W q fmt = .ok enc) :
    ∃ opened, d = .ok opened ∧
      0 < (flattenAlpha opened).width ∧
      enc.image.width = (new_width (flattenAlpha opened) W).toNat ∧
      enc.image.height = (new_height (flattenAlpha opened) W).toNat ∧
      enc.image.width ≠ 0 ∧ enc.image.height ≠ 0 ∧
      enc.format = fmt ∧ enc.quality = q := by
  cases d with
  | error e => simp [resizeCore, exBind] at h
  | ok opened =>
    refine ⟨opened, rfl, ?_⟩
    simp only [resizeCore, exBind_ok] at h
    split at h
    · simp at h
    · next h0 =>
      cases hres : pilResize (flattenAlpha opened) (new_width (flattenAlpha opened) W)
          (new_height (flattenAlpha opened) W) with
      | error e => simp only [hres, exBind_error] at h; simp at h
      | ok resized =>
        simp only [hres, exBind_ok] at h
        unfold pilResize at hres
        split at hres
        · simp at hres
        · cases hres
          unfold pilSave at h
          split at h
          · simp at h
          · next hz =>
            cases h
            push_neg at hz
            exact ⟨by omega, rfl, rfl, hz.1, hz.2, rfl, rfl⟩

/-- C5: whenever the resize operation produces an encoded output, the output
image's width is exactly `min(max_width, original width)`; consequently it
never exceeds the original width (no upscaling) and never exceeds
`max_width`. -/
theorem C5_resize_width (img : DecodedImage) (W q : ℤ) (fmt : String) (enc : Encoded)
    (h : resizeCore (.ok img) W q fmt = .ok enc) :
    (enc.image.width : ℤ) = min W (img.width : ℤ) ∧
    enc.image.width ≤ img.width ∧ (enc.image.width : ℤ) ≤ W := by
  obtain ⟨opened, hop, hpos, hwid, hhei, hnz, hnzh, hfmt, hq⟩ := resizeCore_ok_inv h
  have hop' : opened = img := by
    cases hop
    rfl
  subst hop'
  rw [new_width, flattenAlpha_width] at hwid
  omega

lemma pyRound_eq_floor {q : ℚ} (h : q - ⌊q⌋ < 1 / 2) : pyRound q = ⌊q⌋ := by
  unfold pyRound
  rw [if_pos h]

lemma pyRound_tie_even {q : ℚ} (h : q - ⌊q⌋ = 1 / 2) (he : ⌊q⌋ % 2 = 0) :
    pyRound q = ⌊q⌋ := by
  unfold pyRound
  rw [if_neg (by rw [h]; norm_num), if_neg (by rw [h]; norm_num), if_pos he]

lemma pyRound_nonneg {q : ℚ} (h : 0 ≤ q) : 0 ≤ pyRound q := by
  have h0 : (0 : ℤ) ≤ ⌊q⌋ := Int.floor_nonneg.mpr h
  unfold pyRound
  split_ifs <;> omega

lemma pyRound_abs_sub (q : ℚ) : |(pyRound q : ℚ) - q| ≤ 1 / 2 := by
  have h1 : (⌊q⌋ : ℚ) ≤ q := Int.floor_le q
  have h2 : q < ⌊q⌋ + 1 := Int.lt_floor_add_one q
  unfold pyRound
  split_ifs with hlt hgt heven
  · rw [abs_le]
    constructor <;> linarith
  · push_cast
    rw [abs_le]
    constructor <;> linarith
  · have hr : q - ⌊q⌋ = 1 / 2 := le_antisymm (not_lt.mp hgt) (not_lt.mp hlt)
    rw [abs_le]
    constructor <;> linarith
  · have hr : q - ⌊q⌋ = 1 / 2 := le_antisymm (not_lt.mp hgt) (not_lt.mp hlt)
    push_cast
    rw [abs_le]
    constructor <;> linarith

lemma natPairLog_spec {a b : ℕ} (ha : a ≠ 0) (hb : b ≠ 0) :
    (2 : ℚ) ^ natPairLog a b ≤ (a : ℚ) / (b : ℚ) ∧
    (a : ℚ) / (b : ℚ) < (2 : ℚ) ^ (natPairLog a b + 1) := by
  have hb0 : (0 : ℚ) < (b : ℚ) := by exact_mod_cast Nat.pos_of_ne_zero hb
  have h1a : 2 ^ Nat.log 2 a ≤ a := Nat.pow_log_le_self 2 ha
  have h2a : a < 2 ^ (Nat.log 2 a + 1) := Nat.lt_pow_succ_log_self one_lt_two a
  have h1b : 2 ^ Nat.log 2 b ≤ b := Nat.pow_log_le_self 2 hb
  have h2b : b < 2 ^ (Nat.log 2 b + 1) := Nat.lt_pow_succ_log_self one_lt_two b
  have hpow : ∀ n : ℕ, (2 : ℚ) ^ (n : ℤ) = ((2 ^ n : ℕ) : ℚ) := fun n => by
    rw [zpow_natCast]
    push_cast
    ring
  unfold natPairLog
  split_ifs with hc
  · constructor
    · rw [zpow_sub₀ two_ne_zero, hpow, hpow,
        div_le_div_iff (by positivity) hb0]
      have hc' : 2 ^ Nat.log 2 a * b ≤ a * 2 ^ Nat.log 2 b := by
        rw [Nat.mul_comm]
        exact hc
      exact_mod_cast hc'
    · have he : (Nat.log 2 a : ℤ) - Nat.log 2 b + 1 =
          ((Nat.log 2 a + 1 : ℕ) : ℤ) - Nat.log 2 b := by
        push_cast
        ring
      rw [he, zpow_sub₀ two_ne_zero, hpow, hpow,
        div_lt_div_iff hb0 (by positivity)]
      have key : a * 2 ^ Nat.log 2 b < 2 ^ (Nat.log 2 a + 1) * b := by
        calc a * 2 ^ Nat.log 2 b
            < 2 ^ (Nat.log 2 a + 1) * 2 ^ Nat.log 2 b :=
              mul_lt_mul_of_pos_right h2a (pow_pos (by norm_num) _)
          _ ≤ 2 ^ (Nat.log 2 a + 1) * b := Nat.mul_le_mul (le_refl _) h1b
      exact_mod_cast key
  · push_neg at hc
    constructor
    · have he : (Nat.log 2 a : ℤ) - Nat.log 2 b - 1 =
          (Nat.log 2 a : ℤ) - ((Nat.log 2 b + 1 : ℕ) : ℤ) := by
        push_cast
        ring
      rw [he, zpow_sub₀ two_ne_zero, hpow, hpow,
        div_le_div_iff (by positivity) hb0]
      have key : 2 ^ Nat.log 2 a * b ≤ a * 2 ^ (Nat.log 2 b + 1) := by
        calc 2 ^ Nat.log 2 a * b ≤ a * b := Nat.mul_le_mul h1a (le_refl _)
          _ ≤ a * 2 ^ (Nat.log 2 b + 1) := Nat.mul_le_mul (le_refl _) h2b.le
      exact_mod_cast key
    · have he : (Nat.log 2 a : ℤ) - Nat.log 2 b - 1 + 1 =
          (Nat.log 2 a : ℤ) - Nat.log 2 b := by
        ring
      rw [he, zpow_sub₀ two_ne_zero, hpow, hpow,
        div_lt_div_iff hb0 (by positivity)]
      have key : a * 2 ^ Nat.log 2 b < 2 ^ Nat.log 2 a * b := by
        rw [Nat.mul_comm (2 ^ Nat.log 2 a) b]
        exact hc
      exact_mod_cast key

lemma floorLog2_spec {q : ℚ} (hq : 0 < q) :
    (2 : ℚ) ^ floorLog2 q ≤ q ∧ q < (2 : ℚ) ^ (floorLog2 q + 1) := by
  have hnum : 0 < q.num := Rat.num_pos.mpr hq
  have ha : q.num.toNat ≠ 0 := by omega
  have hq_eq : ((q.num.toNat : ℕ) : ℚ) / ((q.den : ℕ) : ℚ) = q := by
    have h1 : ((q.num.toNat : ℕ) : ℚ) = ((q.num : ℤ) : ℚ) := by
      exact_mod_cast Int.toNat_of_nonneg hnum.le
    rw [h1, Rat.num_div_den]
  have h := natPairLog_spec ha q.den_nz
  rw [hq_eq] at h
  exact h

lemma floorLog2_unique {q : ℚ} (hq : 0 < q) {L : ℤ}
    (h1 : (2 : ℚ) ^ L ≤ q) (h2 : q < (2 : ℚ) ^ (L + 1)) : floorLog2 q = L := by
  obtain ⟨s1, s2⟩ := floorLog2_spec hq
  by_contra hne
  rcases lt_or_gt_of_ne hne with hlt | hgt
  · have hle : floorLog2 q + 1 ≤ L := by omega
    have := zpow_le_zpow_right₀ (by norm_num : (1 : ℚ) ≤ 2) hle
    linarith
  · have hle : L + 1 ≤ floorLog2 q := by omega
    have := zpow_le_zpow_right₀ (by norm_num : (1 : ℚ) ≤ 2) hle
    linarith

lemma fl64_zero : fl64 0 = 0 := by
  simp [fl64]

lemma fl64_eval {q : ℚ} (L m : ℤ) (hq : 0 < q) (h1 : (2 : ℚ) ^ L ≤ q)
    (h2 : q < (2 : ℚ) ^ (L + 1)) (hm : pyRound (q / 2 ^ (L - 52)) = m) :
    fl64 q = (m : ℚ) * 2 ^ (L - 52) := by
  unfold fl64
  rw [if_neg hq.ne', abs_of_pos hq, floorLog2_unique hq h1 h2, hm]

lemma fl64_err {q : ℚ} (hq : 0 < q) : |fl64 q - q| ≤ q / 2 ^ 53 := by
  obtain ⟨s1, _⟩ := floorLog2_spec hq
  have hpow : (0 : ℚ) < 2 ^ (floorLog2 q - 52) := zpow_pos (by norm_num) _
  have key : fl64 q =
      (pyRound (q / 2 ^ (floorLog2 q - 52)) : ℚ) * 2 ^ (floorLog2 q - 52) := by
    unfold fl64
    rw [if_neg hq.ne', abs_of_pos hq]
  have hsplit : fl64 q - q =
      ((pyRound (q / 2 ^ (floorLog2 q - 52)) : ℚ) - q / 2 ^ (floorLog2 q - 52)) *
        2 ^ (floorLog2 q - 52) := by
    rw [key, sub_mul, div_mul_cancel₀]
    exact hpow.ne'
  have hL : (2 : ℚ) ^ floorLog2 q = 2 ^ (floorLog2 q - 52) * 2 ^ (52 : ℕ) := by
    rw [← zpow_natCast (2 : ℚ) 52, ← zpow_add₀ (two_ne_zero)]
    norm_num
  calc |fl64 q - q|
      = |(pyRound (q / 2 ^ (floorLog2 q - 52)) : ℚ) - q / 2 ^ (floorLog2 q - 52)| *
          2 ^ (floorLog2 q - 52) := by
        rw [hsplit, abs_mul, abs_of_pos hpow]
    _ ≤ (1 / 2) * 2 ^ (floorLog2 q - 52) :=
        mul_le_mul_of_nonneg_right (pyRound_abs_sub _) hpow.le
    _ ≤ q / 2 ^ 53 := by
        have h52 : 2 ^ (floorLog2 q - 52) * 2 ^ (52 : ℕ) ≤ q := by
          rw [← hL]
          exact s1
        have h2pos : (0 : ℚ) < 2 ^ (52 : ℕ) := by positivity
        have hstep : (2 : ℚ) ^ (floorLog2 q - 52) ≤ q / 2 ^ (52 : ℕ) := by
          rw [le_div_iff h2pos]
          exact h52
        have heq : q / 2 ^ (52 : ℕ) / 2 = q / 2 ^ 53 := by ring
        linarith

lemma fl64_nonneg {q : ℚ} (hq : 0 ≤ q) : 0 ≤ fl64 q := by
  rcases eq_or_lt_of_le hq with h | h
  · rw [← h, fl64_zero]
  · have key : fl64 q =
        (pyRound (q / 2 ^ (floorLog2 q - 52)) : ℚ) * 2 ^ (floorLog2 q - 52) := by
      unfold fl64
      rw [if_neg h.ne', abs_of_pos h]
    rw [key]
    have hpow : (0 : ℚ) < 2 ^ (floorLog2 q - 52) := zpow_pos (by norm_num) _
    have hround : (0 : ℚ) ≤ (pyRound (q / 2 ^ (floorLog2 q - 52)) : ℚ) := by
      exact_mod_cast pyRound_nonneg (by positivity)
    exact mul_nonneg hround hpow.le

lemma fl64_dyadic {q : ℚ} (L m : ℤ) (hq : 0 < q) (h1 : (2 : ℚ) ^ L ≤ q)
    (h2 : q < (2 : ℚ) ^ (L + 1)) (hqm : q * 2 ^ (52 - L) = (m : ℚ)) :
    fl64 q = q := by
  have hpow : ((2 : ℚ) ^ (L - 52)) ≠ 0 := (zpow_pos (by norm_num) _).ne'
  have harg : q / 2 ^ (L - 52) = ((m : ℤ) : ℚ) := by
    rw [← hqm, div_eq_iff hpow, mul_assoc, ← zpow_add₀ (two_ne_zero : (2 : ℚ) ≠ 0)]
    norm_num
  rw [fl64_eval L m hq h1 h2 (by rw [harg]; exact pyRound_intCast m), ← harg]
  field_simp

lemma resizeCore_eval_ok (img : DecodedImage) (W Q : ℤ) (fmt : String) (nw nh : ℤ)
    (hflat : flattenAlpha img = img) (h0 : ¬ img.width = 0)
    (hnw : new_width img W = nw) (hnh : new_height img W = nh)
    (hneg : ¬ (nw < 0 ∨ nh < 0)) (hz : ¬ (nw.toNat = 0 ∨ nh.toNat = 0)) :
    resizeCore (.ok img) W Q fmt =
      .ok ⟨⟨nw.toNat, nh.toNat, img.mode, img.px⟩, fmt, Q, true⟩ := by
  simp only [resizeCore, exBind_ok, hflat]
  rw [if_neg h0]
  unfold pilResize
  rw [hnw, hnh]
  rw [if_neg hneg]
  rw [exBind_ok]
  unfold pilSave
  rw [if_neg hz]

/-- Witness for C5: the 1×1 RGB image resized with max_width 2 encodes
successfully and its output width is min(2, 1) = 1. -/
theorem C5_resize_width_witness :
    (((⟨sampleImage 1 1 Mode.RGB, "WEBP", 85, true⟩ : Encoded).image.width : ℤ) =
      min 2 ((sampleImage 1 1 Mode.RGB).width : ℤ)) ∧
    (⟨sampleImage 1 1 Mode.RGB, "WEBP", 85, true⟩ : Encoded).image.width ≤
      (sampleImage 1 1 Mode.RGB).width := by
  have hfl_one : fl64 (1 : ℚ) = 1 :=
    fl64_dyadic 0 (2 ^ 52) one_pos (by norm_num) (by norm_num) (by norm_num)
  have hflat : flattenAlpha (sampleImage 1 1 Mode.RGB) = sampleImage 1 1 Mode.RGB :=
    flattenAlpha_of_no_alpha rfl
  have hnw : new_width (sampleImage 1 1 Mode.RGB) 2 = 1 := by
    simp only [new_width, sampleImage]
    omega
  have haspect : aspect_ratio (sampleImage 1 1 Mode.RGB) = 1 := by
    unfold aspect_ratio
    simp only [sampleImage]
    norm_num [hfl_one]
  have hnh : new_height (sampleImage 1 1 Mode.RGB) 2 = 1 := by
    unfold new_height
    rw [hnw, haspect]
    have harg : ((1 : ℤ) : ℚ) * 1 = 1 := by norm_num
    rw [harg, hfl_one]
    exact_mod_cast pyInt_intCast 1
  have hcore : resizeCore (.ok (sampleImage 1 1 Mode.RGB)) 2 85 "WEBP" =
      .ok ⟨sampleImage 1 1 Mode.RGB, "WEBP", 85, true⟩ :=
    resizeCore_eval_ok (sampleImage 1 1 Mode.RGB) 2 85 "WEBP" 1 1 hflat
      (by simp [sampleImage]) hnw hnh (by omega) (by simp)
  have h := C5_resize_width (sampleImage 1 1 Mode.RGB) 2 85 "WEBP"
    ⟨sampleImage 1 1 Mode.RGB, "WEBP", 85, true⟩ hcore
  exact ⟨h.1, h.2.1⟩

/-- C9 fails on the program (exhibit for the code bug): resizing the 21×900
RGB image with max_width 800 computes aspect_ratio = fl(900/21), the binary64
product 21 ⊗ fl(900/21) = 899.9999999999999…, and `int()` truncates it to
899, so the returned image is 21×899, not 21×900 as the claim requires. -/
theorem C9_float_height_shrinks :
    new_height (sampleImage 21 900 Mode.RGB) 800 = 899 ∧
    resizeCore (.ok (sampleImage 21 900 Mode.RGB)) 800 85 "WEBP" =
      .ok ⟨⟨21, 899, Mode.RGB, (sampleImage 21 900 Mode.RGB).px⟩, "WEBP", 85, true⟩ := by
  have hflat : flattenAlpha (sampleImage 21 900 Mode.RGB) = sampleImage 21 900 Mode.RGB :=
    flattenAlpha_of_no_alpha rfl
  have hnw : new_width (sampleImage 21 900 Mode.RGB) 800 = 21 := by
    simp only [new_width, sampleImage]
    omega
  have hfloor1 : ⌊(42221246506598400 : ℚ) / 7⌋ = 6031606643799771 := by
    rw [Int.floor_eq_iff]
    norm_num
  have hm1 : pyRound ((300 : ℚ) / 7 / 2 ^ ((5 : ℤ) - 52)) = 6031606643799771 := by
    have harg : (300 : ℚ) / 7 / 2 ^ ((5 : ℤ) - 52) = 42221246506598400 / 7 := by
      rw [show (5 : ℤ) - 52 = -47 by norm_num, zpow_neg, div_eq_mul_inv, inv_inv]
      norm_num
    rw [harg, pyRound_eq_floor (by rw [hfloor1]; norm_num), hfloor1]
  have haspect : aspect_ratio (sampleImage 21 900 Mode.RGB) =
      (6031606643799771 : ℚ) * 2 ^ ((5 : ℤ) - 52) := by
    unfold aspect_ratio
    simp only [sampleImage]
    rw [show ((900 : ℕ) : ℚ) / ((21 : ℕ) : ℚ) = 300 / 7 by norm_num]
    exact fl64_eval 5 6031606643799771 (by norm_num) (by norm_num) (by norm_num) hm1
  have hprod : ((21 : ℤ) : ℚ) * ((6031606643799771 : ℚ) * 2 ^ ((5 : ℤ) - 52)) =
      (126663739519795191 : ℚ) * 2 ^ ((5 : ℤ) - 52) := by
    push_cast
    ring
  have hval : (126663739519795191 : ℚ) * 2 ^ ((5 : ℤ) - 52) =
      126663739519795191 / 140737488355328 := by
    rw [show (5 : ℤ) - 52 = -47 by norm_num, zpow_neg]
    norm_num
  have hfloor2 : ⌊(126663739519795191 : ℚ) / 16⌋ = 7916483719987199 := by
    rw [Int.floor_eq_iff]
    norm_num
  have hm2 : pyRound ((126663739519795191 : ℚ) / 140737488355328 / 2 ^ ((9 : ℤ) - 52)) =
      7916483719987199 := by
    have harg : (126663739519795191 : ℚ) / 140737488355328 / 2 ^ ((9 : ℤ) - 52) =
        126663739519795191 / 16 := by
      rw [show (9 : ℤ) - 52 = -43 by norm_num, zpow_neg, div_eq_mul_inv, inv_inv]
      norm_num
    rw [harg, pyRound_eq_floor (by rw [hfloor2]; norm_num), hfloor2]
  have hfl2 : fl64 ((126663739519795191 : ℚ) / 140737488355328) =
      (7916483719987199 : ℚ) * 2 ^ ((9 : ℤ) - 52) := by
    refine fl64_eval 9 7916483719987199 (by norm_num) ?_ ?_ hm2
    · rw [show ((9 : ℤ)) = ((9 : ℕ) : ℤ) by norm_num, zpow_natCast]
      norm_num
    · rw [show ((9 : ℤ) + 1) = ((10 : ℕ) : ℤ) by norm_num, zpow_natCast]
      norm_num
  have hnh : new_height (sampleImage 21 900 Mode.RGB) 800 = 899 := by
    unfold new_height
    rw [hnw, haspect, hprod, hval, hfl2]
    rw [pyInt_of_nonneg (by positivity)]
    rw [show (7916483719987199 : ℚ) * 2 ^ ((9 : ℤ) - 52) =
      7916483719987199 / 8796093022208 by rw [show (9 : ℤ) - 52 = -43 by norm_num, zpow_neg]; norm_num]
    rw [Int.floor_eq_iff]
    norm_num
  refine ⟨hnh, ?_⟩
  exact resizeCore_eval_ok (sampleImage 21 900 Mode.RGB) 800 85 "WEBP" 21 899 hflat
    (by simp [sampleImage]) hnw hnh (by omega) (by simp)

/-- C1 is false on the code: resizing the 5×3 RGB image with max_width 3
computes new_width 3, aspect_ratio = fl(3/5), the binary64 product
3 ⊗ fl(3/5) = 1.7999999999999998, and `int()` truncates it to 1, whereas
rounding new_width × original height / original width = round(1.8) gives 2. -/
theorem C1_counterexample :
    new_height (sampleImage 5 3 Mode.RGB) 3 = 1 ∧
    round ((new_width (sampleImage 5 3 Mode.RGB) 3 : ℚ) *
      ((sampleImage 5 3 Mode.RGB).height : ℚ) / ((sampleImage 5 3 Mode.RGB).width : ℚ)) = 2 ∧
    new_height (sampleImage 5 3 Mode.RGB) 3 ≠
      round ((new_width (sampleImage 5 3 Mode.RGB) 3 : ℚ) *
        ((sampleImage 5 3 Mode.RGB).height : ℚ) / ((sampleImage 5 3 Mode.RGB).width : ℚ)) := by
  have hnw : new_width (sampleImage 5 3 Mode.RGB) 3 = 3 := by
    simp only [new_width, sampleImage]
    omega
  have hfloor1 : ⌊(27021597764222976 : ℚ) / 5⌋ = 5404319552844595 := by
    rw [Int.floor_eq_iff]
    norm_num
  have hm1 : pyRound ((3 : ℚ) / 5 / 2 ^ ((-1 : ℤ) - 52)) = 5404319552844595 := by
    have harg : (3 : ℚ) / 5 / 2 ^ ((-1 : ℤ) - 52) = 27021597764222976 / 5 := by
      rw [show (-1 : ℤ) - 52 = -53 by norm_num, zpow_neg, div_eq_mul_inv, inv_inv]
      norm_num
    rw [harg, pyRound_eq_floor (by rw [hfloor1]; norm_num), hfloor1]
  have haspect : aspect_ratio (sampleImage 5 3 Mode.RGB) =
      (5404319552844595 : ℚ) * 2 ^ ((-1 : ℤ) - 52) := by
    unfold aspect_ratio
    simp only [sampleImage]
    rw [show ((3 : ℕ) : ℚ) / ((5 : ℕ) : ℚ) = 3 / 5 by norm_num]
    refine fl64_eval (-1) 5404319552844595 (by norm_num) ?_ ?_ hm1
    · rw [zpow_neg]
      norm_num
    · norm_num
  have hprod : ((3 : ℤ) : ℚ) * ((5404319552844595 : ℚ) * 2 ^ ((-1 : ℤ) - 52)) =
      (16212958658533785 : ℚ) * 2 ^ ((-1 : ℤ) - 52) := by
    push_cast
    ring
  have hval : (16212958658533785 : ℚ) * 2 ^ ((-1 : ℤ) - 52) =
      16212958658533785 / 9007199254740992 := by
    rw [show (-1 : ℤ) - 52 = -53 by norm_num, zpow_neg]
    norm_num
  have hfloor2 : ⌊(16212958658533785 : ℚ) / 2⌋ = 8106479329266892 := by
    rw [Int.floor_eq_iff]
    norm_num
  have hm2 : pyRound ((16212958658533785 : ℚ) / 9007199254740992 / 2 ^ ((0 : ℤ) - 52)) =
      8106479329266892 := by
    have harg : (16212958658533785 : ℚ) / 9007199254740992 / 2 ^ ((0 : ℤ) - 52) =
        16212958658533785 / 2 := by
      rw [show (0 : ℤ) - 52 = -52 by norm_num, zpow_neg, div_eq_mul_inv, inv_inv]
      norm_num
    rw [harg]
    have ht1 : (16212958658533785 : ℚ) / 2 - ⌊(16212958658533785 : ℚ) / 2⌋ = 1 / 2 := by
      rw [hfloor2]
      norm_num
    have ht2 : ⌊(16212958658533785 : ℚ) / 2⌋ % 2 = 0 := by
      rw [hfloor2]
      norm_num
    rw [pyRound_tie_even ht1 ht2, hfloor2]
  have hfl2 : fl64 ((16212958658533785 : ℚ) / 9007199254740992) =
      (8106479329266892 : ℚ) * 2 ^ ((0 : ℤ) - 52) := by
    refine fl64_eval 0 8106479329266892 (by norm_num) (by norm_num) ?_ hm2
    norm_num
  have h1 : new_height (sampleImage 5 3 Mode.RGB) 3 = 1 := by
    unfold new_height
    rw [hnw, haspect, hprod, hval, hfl2]
    rw [pyInt_of_nonneg (by positivity)]
    rw [show (8106479329266892 : ℚ) * 2 ^ ((0 : ℤ) - 52) =
      8106479329266892 / 4503599627370496 by
        rw [show (0 : ℤ) - 52 = -52 by norm_num, zpow_neg]; norm_num]
    rw [Int.floor_eq_iff]
    norm_num
  have h2 : round ((new_width (sampleImage 5 3 Mode.RGB) 3 : ℚ) *
      ((sampleImage 5 3 Mode.RGB).height : ℚ) / ((sampleImage 5 3 Mode.RGB).width : ℚ)) = 2 := by
    rw [hnw]
    simp only [sampleImage]
    rw [show ((3 : ℤ) : ℚ) * ((3 : ℕ) : ℚ) / ((5 : ℕ) : ℚ) = 9 / 5 by norm_num]
    rw [round_eq, Int.floor_eq_iff]
    norm_num
  refine ⟨h1, h2, ?_⟩
  rw [h1, h2]
  norm_num

/-- C1 amended: the output height is the Python `int()` truncation of the
once-rounded binary64 product `new_width ⊗ aspect_ratio` (aspect_ratio being
the binary64 quotient height ⊘ width), not the rounding of the exact ratio;
for every image and max_width whose exact target height
`new_width × height / width` is at most 2^50, the two float roundings and the
truncation keep the output height within 1 of the exact floor
`⌊new_width × height / width⌋`. -/
theorem C1_height_float_trunc (img : DecodedImage) (W : ℤ)
    (hw : 0 < img.width) (hh : 0 < img.height) (hW : 0 ≤ W)
    (hbound : (new_width img W : ℚ) * img.height / img.width ≤ 2 ^ 50) :
    new_height img W =
      pyInt (fl64 ((new_width img W : ℚ) * fl64 ((img.height : ℚ) / img.width))) ∧
    |new_height img W - ⌊(new_width img W : ℚ) * img.height / img.width⌋| ≤ 1 := by
  refine ⟨rfl, ?_⟩
  have hnw0 : 0 ≤ new_width img W := le_min hW (Int.ofNat_nonneg _)
  rcases eq_or_lt_of_le hnw0 with h0 | hpos
  · have hq0 : (new_width img W : ℚ) * img.height / img.width = 0 := by
      rw [← h0]
      norm_num
    have hnh : new_height img W = 0 := by
      unfold new_height
      rw [← h0]
      have : ((0 : ℤ) : ℚ) * aspect_ratio img = 0 := by norm_num
      rw [this, fl64_zero]
      rw [pyInt_of_nonneg le_rfl]
      exact Int.floor_zero
    rw [hnh, hq0]
    simp
  · have hnwQ : (0 : ℚ) < (new_width img W : ℚ) := by exact_mod_cast hpos
    have ha0 : (0 : ℚ) < (img.height : ℚ) / (img.width : ℚ) := by
      apply div_pos
      · exact_mod_cast hh
      · exact_mod_cast hw
    have hq_goal : (new_width img W : ℚ) * img.height / img.width =
        (new_width img W : ℚ) * ((img.height : ℚ) / img.width) := mul_div_assoc _ _ _
    set a : ℚ := (img.height : ℚ) / (img.width : ℚ) with ha_def
    set nwQ : ℚ := (new_width img W : ℚ) with hnwQ_def
    set q : ℚ := nwQ * a with hq_def
    have hq0 : 0 < q := mul_pos hnwQ ha0
    have hqB : q ≤ 2 ^ 50 := by
      rw [← hq_goal]
      exact hbound
    have e1 := abs_le.mp (fl64_err ha0)
    set f1 : ℚ := fl64 a with hf1_def
    set p : ℚ := nwQ * f1 with hp_def
    have hp_lo : q - q / 2 ^ 53 ≤ p := by
      have h1 : nwQ * (f1 - a) = p - q := by
        rw [hp_def, hq_def]
        ring
      have h3 : nwQ * -(a / 2 ^ 53) ≤ nwQ * (f1 - a) :=
        mul_le_mul_of_nonneg_left (by linarith [e1.1]) hnwQ.le
      have h4 : nwQ * -(a / 2 ^ 53) = -(q / 2 ^ 53) := by
        rw [hq_def]
        ring
      linarith
    have hp_hi : p ≤ q + q / 2 ^ 53 := by
      have h1 : nwQ * (f1 - a) = p - q := by
        rw [hp_def, hq_def]
        ring
      have h3 : nwQ * (f1 - a) ≤ nwQ * (a / 2 ^ 53) :=
        mul_le_mul_of_nonneg_left e1.2 hnwQ.le
      have h4 : nwQ * (a / 2 ^ 53) = q / 2 ^ 53 := by
        rw [hq_def]
        ring
      linarith
    have hq53 : q / 2 ^ 53 ≤ 1 / 8 := by
      have h1 : q / 2 ^ 53 ≤ (2 : ℚ) ^ 50 / 2 ^ 53 :=
        (div_le_div_right (by positivity)).mpr hqB
      have h2 : ((2 : ℚ) ^ 50) / 2 ^ 53 = 1 / 8 := by norm_num
      linarith
    have hp0 : 0 < p := by
      have : q / 2 ^ 53 < q := by
        have h1 : (0 : ℚ) < q := hq0
        nlinarith
      linarith
    have e2 := abs_le.mp (fl64_err hp0)
    set f2 : ℚ := fl64 p with hf2_def
    have hp53 : p / 2 ^ 53 ≤ 1 / 4 := by
      have h1 : p ≤ (2 : ℚ) ^ 50 + 1 / 8 := by linarith
      have h2 : p / 2 ^ 53 ≤ ((2 : ℚ) ^ 50 + 1 / 8) / 2 ^ 53 :=
        (div_le_div_right (by positivity)).mpr h1
      have h3 : ((2 : ℚ) ^ 50 + 1 / 8) / 2 ^ 53 ≤ 1 / 4 := by norm_num
      linarith
    have hf2_lo : q - 1 / 2 ≤ f2 := by
      linarith [e2.1, hp_lo, hq53, hp53]
    have hf2_hi : f2 ≤ q + 1 / 2 := by
      linarith [e2.2, hp_hi, hq53, hp53]
    have hnh : new_height img W = ⌊f2⌋ := by
      have hrw : fl64 ((new_width img W : ℚ) * fl64 ((img.height : ℚ) / (img.width : ℚ))) =
          f2 := by
        rw [hf2_def, hp_def, hf1_def, ha_def, hnwQ_def]
      unfold new_height aspect_ratio
      rw [hrw]
      refine pyInt_of_nonneg ?_
      rw [hf2_def]
      exact fl64_nonneg hp0.le
    rw [hnh, hq_goal]
    have hfl : ⌊q⌋ - 1 ≤ ⌊f2⌋ := by
      apply Int.le_floor.mpr
      push_cast
      have := Int.floor_le q
      linarith
    have hfu : ⌊f2⌋ ≤ ⌊q⌋ + 1 := by
      have h3 : ⌊f2⌋ < ⌊q⌋ + 2 := by
        apply Int.floor_lt.mpr
        push_cast
        have := Int.lt_floor_add_one q
        linarith
      omega
    rw [abs_le]
    omega

/-- Witness for the amended C1 at the 5×3 RGB image with max_width 3. -/
theorem C1_height_float_trunc_witness :
    0 < (sampleImage 5 3 Mode.RGB).width ∧
    (new_width (sampleImage 5 3 Mode.RGB) 3 : ℚ) * (sampleImage 5 3 Mode.RGB).height /
      (sampleImage 5 3 Mode.RGB).width ≤ 2 ^ 50 ∧
    |new_height (sampleImage 5 3 Mode.RGB) 3 -
      ⌊(new_width (sampleImage 5 3 Mode.RGB) 3 : ℚ) * (sampleImage 5 3 Mode.RGB).height /
        (sampleImage 5 3 Mode.RGB).width⌋| ≤ 1 := by
  have hb : (new_width (sampleImage 5 3 Mode.RGB) 3 : ℚ) * (sampleImage 5 3 Mode.RGB).height /
      (sampleImage 5 3 Mode.RGB).width ≤ 2 ^ 50 := by
    have hnw : new_width (sampleImage 5 3 Mode.RGB) 3 = 3 := by
      simp only [new_width, sampleImage]
      omega
    rw [hnw]
    simp only [sampleImage]
    norm_num
  exact ⟨by norm_num [sampleImage], hb,
    (C1_height_float_trunc (sampleImage 5 3 Mode.RGB) 3 (by norm_num [sampleImage])
      (by norm_num [sampleImage]) (by norm_num) hb).2⟩

lemma resize_image_of_core_error {req : Request} {W q : ℤ} {e : String}
    (hct : validContentType req.contentType = true)
    (h : resizeCore req.decoded W q "WEBP" = .error e) :
    resize_image req W q = ⟨.httpError ⟨400, e⟩,
      [.readUpload, .logError ("Image processing failed: " ++ e)]⟩ := by
  unfold resize_image resize_in_memory
  rw [if_pos hct, h]

lemma resize_image_of_core_ok {req : Request} {W q : ℤ} {enc : Encoded}
    (hct : validContentType req.contentType = true)
    (h : resizeCore req.decoded W q "WEBP" = .ok enc) :
    resize_image req W q = ⟨.ok enc "image/webp", [.readUpload]⟩ := by
  unfold resize_image resize_in_memory
  rw [if_pos hct, h]

lemma crop_square_of_core_error {req : Request} {q : ℤ} {e : String}
    (hct : validContentType req.contentType = true)
    (h : cropSquareCore req.decoded q = .error e) :
    crop_square req q = ⟨.httpError ⟨400, e⟩,
      [.readUpload, .logError ("Image processing failed: " ++ e)]⟩ := by
  unfold crop_square
  rw [if_pos hct, h]

lemma crop_of_core_error {req : Request} {box : ℚ × ℚ × ℚ × ℚ} {q : ℤ} {e : String}
    (hct : validContentType req.contentType = true)
    (h : cropCore req.decoded box q = .error e) :
    crop req box q = ⟨.httpError ⟨400, e⟩, [.readUpload]⟩ := by
  unfold crop
  rw [if_pos hct, h]

lemma crop_of_core_ok {req : Request} {box : ℚ × ℚ × ℚ × ℚ} {q : ℤ} {enc : Encoded}
    (hct : validContentType req.contentType = true)
    (h : cropCore req.decoded box q = .ok enc) :
    crop req box q = ⟨.noBody, [.readUpload]⟩ := by
  unfold crop
  rw [if_pos hct, h]

/-- C4: a request whose declared content type is missing or does not start
with "image/" is rejected by every endpoint with a 400 "File must be an
image", with an empty event trace: the upload body is never read and no
image processing happens. -/
theorem C4_content_type_guard (req : Request) (W q : ℤ) (box : ℚ × ℚ × ℚ × ℚ)
    (h : validContentType req.contentType = false) :
    resize_image req W q = ⟨.httpError ⟨400, "File must be an image"⟩, []⟩ ∧
    crop_square req q = ⟨.httpError ⟨400, "File must be an image"⟩, []⟩ ∧
    crop req box q = ⟨.httpError ⟨400, "File must be an image"⟩, []⟩ := by
  unfold resize_image crop_square crop
  rw [h]
  simp

/-- Witness for C4: a request with a missing content type is rejected by all
three endpoints without reading the body. -/
theorem C4_content_type_guard_witness :
    validContentType (⟨none, Except.error "b"⟩ : Request).contentType = false ∧
    resize_image ⟨none, Except.error "b"⟩ 800 85 =
      ⟨.httpError ⟨400, "File must be an image"⟩, []⟩ ∧
    crop_square ⟨none, Except.error "b"⟩ 85 =
      ⟨.httpError ⟨400, "File must be an image"⟩, []⟩ ∧
    crop ⟨none, Except.error "b"⟩ (0, 0, 1, 1) 85 =
      ⟨.httpError ⟨400, "File must be an image"⟩, []⟩ :=
  ⟨rfl, C4_content_type_guard ⟨none, Except.error "b"⟩ 800 85 (0, 0, 1, 1) rfl⟩

/-- C3 is false as stated: this failing request to `/crop` (its decode raises
"boom") is answered 400 with the exception text, but nothing is written to
the log — the event trace contains no log entry. -/
theorem C3_counterexample :
    (crop ⟨some "image/png", Except.error "boom"⟩ (0, 0, 1, 1) 85).response =
      .httpError ⟨400, "boom"⟩ ∧
    (crop ⟨some "image/png", Except.error "boom"⟩ (0, 0, 1, 1) 85).events =
      [.readUpload] ∧
    Event.logError ("Image processing failed: " ++ "boom") ∉
      (crop ⟨some "image/png", Except.error "boom"⟩ (0, 0, 1, 1) 85).events := by
  have hcrop := @crop_of_core_error ⟨some "image/png", Except.error "boom"⟩
    (0, 0, 1, 1) 85 "boom" (by decide) rfl
  rw [hcrop]
  refine ⟨rfl, rfl, ?_⟩
  simp

/-- C3 amended: on a decode/transform/encode exception, `/resize` and
`/crop-square` respond 400 with the exception's message and write the failure
description to the log, but `/crop` responds 400 with the message without
logging anything. -/
theorem C3_error_handling_amended :
    (∀ (req : Request) (W q : ℤ) (e : String),
        validContentType req.contentType = true →
        resizeCore req.decoded W q "WEBP" = .error e →
        resize_image req W q = ⟨.httpError ⟨400, e⟩,
          [.readUpload, .logError ("Image processing failed: " ++ e)]⟩) ∧
    (∀ (req : Request) (q : ℤ) (e : String),
        validContentType req.contentType = true →
        cropSquareCore req.decoded q = .error e →
        crop_square req q = ⟨.httpError ⟨400, e⟩,
          [.readUpload, .logError ("Image processing failed: " ++ e)]⟩) ∧
    (∀ (req : Request) (box : ℚ × ℚ × ℚ × ℚ) (q : ℤ) (e : String),
        validContentType req.contentType = true →
        cropCore req.decoded box q = .error e →
        crop req box q = ⟨.httpError ⟨400, e⟩, [.readUpload]⟩) :=
  ⟨fun _ _ _ _ hct h => resize_image_of_core_error hct h,
   fun _ _ _ hct h => crop_square_of_core_error hct h,
   fun _ _ _ _ hct h => crop_of_core_error hct h⟩

/-- Witness for the amended C3: a `/resize` request whose decode raises "bad"
is answered 400 "bad" and the failure is logged. -/
theorem C3_error_handling_amended_witness :
    validContentType (⟨some "image/png", Except.error "bad"⟩ : Request).contentType = true ∧
    resize_image ⟨some "image/png", Except.error "bad"⟩ 800 85 =
      ⟨.httpError ⟨400, "bad"⟩,
       [.readUpload, .logError ("Image processing failed: " ++ "bad")]⟩ :=
  ⟨by decide,
   C3_error_handling_amended.1 ⟨some "image/png", Except.error "bad"⟩ 800 85 "bad"
     (by decide) rfl⟩

/-- C2: a `/crop` request that passes the content-type guard and whose
decode, crop and encode all succeed produces no response body: the handler
returns `None` (the success path has no return statement). -/
theorem C2_crop_no_response (req : Request) (box : ℚ × ℚ × ℚ × ℚ) (q : ℤ)
    (hct : validContentType req.contentType = true)
    (hok : (cropCore req.decoded box q).isOk = true) :
    (crop req box q).response = .noBody ∧ (crop req box q).events = [.readUpload] := by
  cases hc : cropCore req.decoded box q with
  | error e => rw [hc] at hok; simp [Except.isOk, Except.toBool] at hok
  | ok enc => rw [crop_of_core_ok hct hc]; exact ⟨rfl, rfl⟩

/-- Witness for C2: cropping the 4×4 RGB image to the box (0,0,2,2) succeeds
end to end, and the handler still returns no response body. -/
theorem C2_crop_no_response_witness :
    validContentType (some "image/png") = true ∧
    (cropCore (Except.ok (sampleImage 4 4 Mode.RGB))
      (((0 : ℤ) : ℚ), ((0 : ℤ) : ℚ), ((2 : ℤ) : ℚ), ((2 : ℤ) : ℚ)) 85).isOk = true ∧
    (crop ⟨some "image/png", Except.ok (sampleImage 4 4 Mode.RGB)⟩
      (((0 : ℤ) : ℚ), ((0 : ℤ) : ℚ), ((2 : ℤ) : ℚ), ((2 : ℤ) : ℚ)) 85).response = .noBody := by
  have hflat : flattenAlpha (sampleImage 4 4 Mode.RGB) = sampleImage 4 4 Mode.RGB :=
    flattenAlpha_of_no_alpha rfl
  have hok : (cropCore (Except.ok (sampleImage 4 4 Mode.RGB))
      (((0 : ℤ) : ℚ), ((0 : ℤ) : ℚ), ((2 : ℤ) : ℚ), ((2 : ℤ) : ℚ)) 85).isOk = true := by
    simp only [cropCore, exBind_ok, hflat]
    rw [pilCrop_intBox _ 0 0 2 2 (by norm_num) (by norm_num)]
    rw [exBind_ok]
    unfold pilSave
    rw [if_neg (by simp)]
    rfl
  exact ⟨by decide, hok,
    (C2_crop_no_response ⟨some "image/png", Except.ok (sampleImage 4 4 Mode.RGB)⟩
      (((0 : ℤ) : ℚ), ((0 : ℤ) : ℚ), ((2 : ℤ) : ℚ), ((2 : ℤ) : ℚ)) 85 (by decide) hok).1⟩

lemma resizeCore_error_of_nonpos (img : DecodedImage) (W q : ℤ) (fmt : String)
    (hW : W ≤ 0) : ∃ e, resizeCore (.ok img) W q fmt = .error e := by
  by_cases h0 : (flattenAlpha img).width = 0
  · exact ⟨"division by zero", by simp [resizeCore, exBind_ok, h0]⟩
  · have hnw : new_width (flattenAlpha img) W = W :=
      min_eq_left (le_trans hW (Int.ofNat_nonneg _))
    by_cases hWz : W = 0
    · subst hWz
      have hnh : new_height (flattenAlpha img) 0 = 0 := by
        unfold new_height
        rw [hnw]
        have harg : ((0 : ℤ) : ℚ) * aspect_ratio (flattenAlpha img) = 0 := by norm_num
        rw [harg, fl64_zero, pyInt_of_nonneg le_rfl]
        exact Int.floor_zero
      refine ⟨"cannot write empty image", ?_⟩
      simp only [resizeCore, exBind_ok]
      rw [if_neg h0]
      unfold pilResize
      rw [hnw, hnh]
      rw [if_neg (by omega)]
      rw [exBind_ok]
      unfold pilSave
      rw [if_pos]
      exact Or.inl rfl
    · have hWneg : W < 0 := lt_of_le_of_ne hW hWz
      refine ⟨"height and width must be >= 0", ?_⟩
      simp only [resizeCore, exBind_ok]
      rw [if_neg h0]
      unfold pilResize
      rw [hnw]
      rw [if_pos (Or.inl hWneg)]
      rw [exBind_error]

/-- C8: a request to `/resize` that passes the content-type guard, decodes
successfully, and carries `max_width ≤ 0` fails, and the handler responds
with a 400 client error. -/
theorem C8_nonpositive_max_width (req : Request) (img : DecodedImage) (W q : ℤ)
    (hct : validContentType req.contentType = true)
    (hdec : req.decoded = .ok img) (hW : W ≤ 0) :
    ∃ e, (resize_image req W q).response = .httpError e ∧ e.status = 400 := by
  obtain ⟨e, he⟩ := resizeCore_error_of_nonpos img W q "WEBP" hW
  refine ⟨⟨400, e⟩, ?_, rfl⟩
  rw [resize_image_of_core_error hct (by rw [hdec]; exact he)]

/-- Witness for C8: the 2×2 RGB image uploaded to `/resize` with
max_width 0 yields a 400. -/
theorem C8_nonpositive_max_width_witness :
    ∃ e, (resize_image ⟨some "image/png", Except.ok (sampleImage 2 2 Mode.RGB)⟩ 0 85).response =
      .httpError e ∧ e.status = 400 :=
  C8_nonpositive_max_width ⟨some "image/png", Except.ok (sampleImage 2 2 Mode.RGB)⟩
    (sampleImage 2 2 Mode.RGB) 0 85 (by decide) rfl (by norm_num)

/-- C10: the `/resize` handler always calls the encoder with the default
output format "WEBP" and, on success, always returns media type
"image/webp"; no caller of the endpoint can obtain another encoding. -/
theorem C10_resize_always_webp (req : Request) (W q : ℤ) :
    (∃ e, (resize_image req W q).response = .httpError e) ∨
    (∃ enc, (resize_image req W q).response = .ok enc "image/webp" ∧
      enc.format = "WEBP") := by
  by_cases hct : validContentType req.contentType = true
  · cases hc : resizeCore req.decoded W q "WEBP" with
    | error e =>
      left
      exact ⟨⟨400, e⟩, by rw [resize_image_of_core_error hct hc]⟩
    | ok enc =>
      right
      obtain ⟨opened, hop, hpos, hwid, hhei, hnz1, hnz2, hfmt, hq⟩ := resizeCore_ok_inv hc
      exact ⟨enc, by rw [resize_image_of_core_ok hct hc], hfmt⟩
  · left
    refine ⟨⟨400, "File must be an image"⟩, ?_⟩
    unfold resize_image
    rw [if_neg hct]

end ImageConverter
